import Mathlib

/-!
Shallow embedding of the medipay ledger store (`src/app.py`).

The Python code keeps two in-memory lists on the `Financeiro` object:
`self.medicos` (a list of `Medico` objects) and `self.atendimentos`
(a list of `Atendimento` objects).  An `Atendimento` holds a *reference*
to its `Medico` object, so mutating the doctor in place (as
`atualizar_medico` does) is visible through every appointment that
references it, and a doctor removed from `self.medicos` stays alive as
long as an appointment still references it.

To keep this aliasing faithful, the embedding models a heap: `heap`
lists every `Medico` object ever allocated (in allocation order), the
registered-doctor list `medicos` holds heap indices ("pointers"), and
each `Atendimento` stores the heap index of the doctor it references.
Field mutation rewrites the heap slot; removal only drops the pointer
from `medicos`.

Floats are modelled as `Rat`; sqlite rows as explicit row structures.
-/

namespace Medipay

/-- `class Medico` of `src/app.py`: id, nome, percentual_repasse. -/
structure Medico where
  id : Nat
  nome : String
  percentual_repasse : Rat
deriving Repr, DecidableEq

/-- Placeholder object used by out-of-range heap reads (never hit on
well-formed states). -/
def defaultMedico : Medico := ⟨0, "", 0⟩

/-- `class Atendimento` of `src/app.py`: id, a reference to a `Medico`
object (modelled as a heap index) and valor. -/
structure Atendimento where
  id : Nat
  medicoPtr : Nat
  valor : Rat
deriving Repr, DecidableEq

/-- In-memory state of the `Financeiro` object: the object heap, the
registered doctors (heap pointers, insertion order) and the
appointments. -/
structure Financeiro where
  heap : List Medico
  medicos : List Nat
  atendimentos : List Atendimento
deriving Repr, DecidableEq

/-- The state of a freshly constructed store over an empty database. -/
def Financeiro.empty : Financeiro := ⟨[], [], []⟩

/-- Dereference a doctor pointer. -/
def Financeiro.medicoAt (s : Financeiro) (p : Nat) : Medico :=
  s.heap.getD p defaultMedico

/-- `Atendimento.calcular_repasse`: `self.valor * (self.medico.percentual_repasse / 100)`.
The referenced doctor's *current* percentage is read from the heap. -/
def Financeiro.calcular_repasse (s : Financeiro) (a : Atendimento) : Rat :=
  a.valor * ((s.medicoAt a.medicoPtr).percentual_repasse / 100)

/-- `Financeiro.obter_medico_por_id`:
`next((m for m in self.medicos if m.id == medico_id), None)` —
first registered doctor with the given id, as a heap pointer. -/
def Financeiro.obter_medico_por_id (s : Financeiro) (medico_id : Nat) : Option Nat :=
  s.medicos.find? (fun p => (s.medicoAt p).id == medico_id)

/-- `Financeiro.listar_medicos`: returns the doctor list. -/
def Financeiro.listar_medicos (s : Financeiro) : List Nat :=
  s.medicos

/-- `Financeiro.listar_atendimentos`: returns the appointment list. -/
def Financeiro.listar_atendimentos (s : Financeiro) : List Atendimento :=
  s.atendimentos

/-- `Financeiro.cadastrar_medico`: allocates `Medico(len(self.medicos)+1, nome, percentual)`,
appends it, returns it (here: the new state and the new object's pointer). -/
def Financeiro.cadastrar_medico (s : Financeiro) (nome : String) (percentual_repasse : Rat) :
    Financeiro × Nat :=
  let medico_id := s.medicos.length + 1
  let ptr := s.heap.length
  (⟨s.heap ++ [⟨medico_id, nome, percentual_repasse⟩], s.medicos ++ [ptr], s.atendimentos⟩, ptr)

/-- `Financeiro.atualizar_medico`: partial in-place update of the first
doctor with the given id; `None` fields are kept.  Returns the new state
and the success boolean. -/
def Financeiro.atualizar_medico (s : Financeiro) (medico_id : Nat)
    (nome : Option String) (percentual_repasse : Option Rat) : Financeiro × Bool :=
  match s.obter_medico_por_id medico_id with
  | none => (s, false)
  | some ptr =>
    let m := s.medicoAt ptr
    let m2 : Medico :=
      ⟨m.id, nome.getD m.nome, percentual_repasse.getD m.percentual_repasse⟩
    (⟨s.heap.set ptr m2, s.medicos, s.atendimentos⟩, true)

/-- `Financeiro.remover_medico`: `self.medicos.remove(medico)` removes the
first occurrence of the found object (Python object identity = pointer
equality here). -/
def Financeiro.remover_medico (s : Financeiro) (medico_id : Nat) : Financeiro × Bool :=
  match s.obter_medico_por_id medico_id with
  | none => (s, false)
  | some ptr => (⟨s.heap, s.medicos.erase ptr, s.atendimentos⟩, true)

/-- `Financeiro.registrar_atendimento`: `None` if the doctor id does not
resolve, otherwise appends `Atendimento(len(self.atendimentos)+1, medico, valor)`
(no validation of `valor` happens here). -/
def Financeiro.registrar_atendimento (s : Financeiro) (medico_id : Nat) (valor : Rat) :
    Financeiro × Option Atendimento :=
  match s.obter_medico_por_id medico_id with
  | none => (s, none)
  | some ptr =>
    let a : Atendimento := ⟨s.atendimentos.length + 1, ptr, valor⟩
    (⟨s.heap, s.medicos, s.atendimentos ++ [a]⟩, some a)

/-- Result record of `Financeiro.relatorio_financeiro`. -/
structure Relatorio where
  faturamento_total : Rat
  total_repasse : Rat
  lucro_liquido : Rat
  qtd_atendimentos : Nat
  qtd_medicos : Nat
deriving Repr, DecidableEq

/-- `Financeiro.relatorio_financeiro`: sums amounts and payouts over the
appointment list and reports counts.  Pure: it takes the state and
returns only the report. -/
def Financeiro.relatorio_financeiro (s : Financeiro) : Relatorio :=
  let total := (s.atendimentos.map (fun a => a.valor)).sum
  let total_repasse := (s.atendimentos.map (fun a => s.calcular_repasse a)).sum
  ⟨total, total_repasse, total - total_repasse, s.atendimentos.length, s.medicos.length⟩

/-- The POST branch of the `/atendimentos/novo` route (`novo_atendimento`
in `src/app.py`), after form parsing: the `valor > 0` guard lives here,
in the presentation layer, not in `registrar_atendimento`. -/
def novo_atendimento_post (s : Financeiro) (medico_id : Nat) (valor : Rat) :
    Financeiro × Option Atendimento :=
  if valor > 0 then s.registrar_atendimento medico_id valor else (s, none)

/-- One mutating call of the store's public interface. -/
inductive Op where
  | cadastrar (nome : String) (percentual : Rat)
  | atualizar (medico_id : Nat) (nome : Option String) (percentual : Option Rat)
  | remover (medico_id : Nat)
  | registrar (medico_id : Nat) (valor : Rat)
deriving Repr, DecidableEq

/-- Effect of one call on the in-memory state. -/
def Financeiro.step (s : Financeiro) : Op → Financeiro
  | .cadastrar n p => (s.cadastrar_medico n p).1
  | .atualizar i n p => (s.atualizar_medico i n p).1
  | .remover i => (s.remover_medico i).1
  | .registrar i v => (s.registrar_atendimento i v).1

/-- Run a sequence of calls. -/
def Financeiro.run (s : Financeiro) (ops : List Op) : Financeiro :=
  ops.foldl Financeiro.step s

/-- The doctor objects currently registered, in list order (the
observable content of `self.medicos`). -/
def Financeiro.medicosView (s : Financeiro) : List Medico :=
  s.medicos.map (fun p => s.medicoAt p)

/-- Well-formedness: every pointer is a live heap index and the doctor
list holds pairwise distinct objects.  Every state reachable from
`Financeiro.empty` satisfies this. -/
def Financeiro.WF (s : Financeiro) : Prop :=
  s.medicos.Nodup ∧
  (∀ p ∈ s.medicos, p < s.heap.length) ∧
  (∀ a ∈ s.atendimentos, a.medicoPtr < s.heap.length)

instance (s : Financeiro) : Decidable s.WF := by
  unfold Financeiro.WF
  infer_instance

/-! ## Persistence (`_inicializar_banco` / `salvar_dados` / `carregar_dados`)

The sqlite tables are `medicos(id INTEGER PRIMARY KEY, nome, percentual_repasse)`
and `atendimentos(id INTEGER PRIMARY KEY, medico_id, valor)`.  A `medicos`
row carries exactly the fields of a `Medico` object, so it is represented
by `Medico` itself; an `atendimentos` row gets its own structure.  An
`INSERT` into a table whose `id` column is `INTEGER PRIMARY KEY` fails
(raises `sqlite3.IntegrityError`) when the id is already present, and a
`SELECT` without `ORDER BY` on such a table scans in rowid = id order;
both facts are modelled explicitly. -/

/-- A row of the `atendimentos` table (also used as the observable view
of an in-memory appointment: id, referenced doctor's id, amount). -/
structure AtendimentoRow where
  id : Nat
  medico_id : Nat
  valor : Rat
deriving Repr, DecidableEq

/-- The two sqlite tables, as stored. -/
structure DB where
  medicos : List Medico
  atendimentos : List AtendimentoRow
deriving Repr, DecidableEq

/-- `INSERT` into a table with `id INTEGER PRIMARY KEY`: fails on a
duplicate id. -/
def insertRow {α : Type} (idOf : α → Nat) (t : List α) (r : α) : Option (List α) :=
  if t.any (fun x => idOf x == idOf r) then none else some (t ++ [r])

/-- Insert rows one after another; the first failure aborts. -/
def insertAll {α : Type} (idOf : α → Nat) : List α → List α → Option (List α)
  | t, [] => some t
  | t, r :: rs =>
    match insertRow idOf t r with
    | none => none
    | some t2 => insertAll idOf t2 rs

/-- Insert into an id-sorted list, keeping it sorted. -/
def insertSortedBy {α : Type} (idOf : α → Nat) (r : α) : List α → List α
  | [] => [r]
  | x :: xs => if idOf r < idOf x then r :: x :: xs else x :: insertSortedBy idOf r xs

/-- Rows of a table in the order a plain `SELECT` returns them: ascending
id (rowid) order. -/
def sortById {α : Type} (idOf : α → Nat) : List α → List α
  | [] => []
  | x :: xs => insertSortedBy idOf x (sortById idOf xs)

/-- The row `salvar_dados` writes for one appointment:
`(a.id, a.medico.id, a.valor)` — the id of the *referenced object*,
whether or not that doctor is still registered. -/
def Financeiro.atendimentoRowOf (s : Financeiro) (a : Atendimento) : AtendimentoRow :=
  ⟨a.id, (s.medicoAt a.medicoPtr).id, a.valor⟩

/-- Observable view of the appointment list: each appointment as the row
it would be saved as. -/
def Financeiro.atendimentosView (s : Financeiro) : List AtendimentoRow :=
  s.atendimentos.map (fun a => s.atendimentoRowOf a)

/-- `Financeiro.salvar_dados`: `DELETE` both tables, then re-`INSERT`
every doctor and every appointment from memory, in list order.  `none`
models the uncaught `IntegrityError` a duplicate id raises. -/
def Financeiro.salvar_dados (s : Financeiro) : Option DB :=
  match insertAll Medico.id [] s.medicosView with
  | none => none
  | some mt =>
    match insertAll AtendimentoRow.id [] s.atendimentosView with
    | none => none
    | some att => some ⟨mt, att⟩

/-- `Financeiro.carregar_dados`: clear memory, rebuild every doctor from
its row, then rebuild each appointment row whose `medico_id` resolves
(via the same first-match scan as `obter_medico_por_id`), silently
dropping the others. -/
def carregar_dados (db : DB) : Financeiro :=
  let heap := sortById Medico.id db.medicos
  let ptrs := List.range heap.length
  let ats := (sortById AtendimentoRow.id db.atendimentos).filterMap
    (fun r =>
      match ptrs.find? (fun p => (heap.getD p defaultMedico).id == r.medico_id) with
      | none => none
      | some p => some (⟨r.id, p, r.valor⟩ : Atendimento))
  ⟨heap, ptrs, ats⟩

/-- The doctor heap as `carregar_dados` rebuilds it (definitionally the
`heap` of `carregar_dados`; named for the proofs below). -/
def DB.loadedMedicos (db : DB) : List Medico := sortById Medico.id db.medicos

/-- The re-linking step `carregar_dados` applies to one appointment row
(definitionally its `ats` body). -/
def DB.link (db : DB) (r : AtendimentoRow) : Option Atendimento :=
  match (List.range db.loadedMedicos.length).find?
      (fun p => (db.loadedMedicos.getD p defaultMedico).id == r.medico_id) with
  | none => none
  | some p => some ⟨r.id, p, r.valor⟩

/-- Observable row of an appointment in the loaded state. -/
def DB.loadedRowOf (db : DB) (a : Atendimento) : AtendimentoRow :=
  ⟨a.id, (db.loadedMedicos.getD a.medicoPtr defaultMedico).id, a.valor⟩

/-- Does some loaded doctor carry the row's `medico_id`?  (Exactly when
`carregar_dados` keeps the row.) -/
def DB.loadCond (db : DB) (r : AtendimentoRow) : Bool :=
  db.loadedMedicos.any (fun m => m.id == r.medico_id)

/-- Does this call remove a doctor? -/
def Op.isRemover : Op → Bool
  | .remover _ => true
  | _ => false

/-- The registered doctors carry ids 1, 2, …, n in list order. -/
def idsSeq (s : Financeiro) : Prop :=
  s.medicosView.map Medico.id = (List.range s.medicos.length).map Nat.succ

/-- Doctor object `ptr` carries id `i` and is the object
`obter_medico_por_id i` returns. -/
def firstWithId (s : Financeiro) (ptr i : Nat) : Prop :=
  (s.medicoAt ptr).id = i ∧ s.obter_medico_por_id i = some ptr

/-! ## Concrete states used in counterexamples and witnesses -/

/-- Register two doctors, remove the first, register a third: the
count-based id scheme hands out `len + 1 = 2` again. -/
def sColl : Financeiro :=
  Financeiro.empty.run
    [.cadastrar "A" 10, .cadastrar "B" 20, .remover 1, .cadastrar "C" 30]

/-- Register three doctors, remove the first two, register a fourth:
all ids distinct, but the list order is [id 3, id 2]. -/
def sSwap : Financeiro :=
  Financeiro.empty.run
    [.cadastrar "A" 10, .cadastrar "B" 20, .cadastrar "C" 30,
     .remover 1, .remover 2, .cadastrar "D" 40]

/-- One registered doctor, "Dra. Ana" at 20 percent (gets id 1, heap slot 0). -/
def sAna : Financeiro := (Financeiro.empty.cadastrar_medico "Dra. Ana" 20).1

/-- "Dra. Ana" plus one appointment of 100 for her. -/
def sReg : Financeiro := (sAna.registrar_atendimento 1 100).1

/-! ## List helper lemmas -/

theorem getD_append_left {α : Type} {l l2 : List α} {n : Nat} (d : α) (h : n < l.length) :
    (l ++ l2).getD n d = l.getD n d := by
  simp [List.getD_eq_getElem?_getD, List.getElem?_append_left h]

theorem getD_append_length {α : Type} (l : List α) (x d : α) :
    (l ++ [x]).getD l.length d = x := by
  simp [List.getD_eq_getElem?_getD, List.getElem?_append_right (Nat.le_refl l.length)]

theorem getD_set_self {α : Type} {l : List α} {n : Nat} (a d : α) (h : n < l.length) :
    (l.set n a).getD n d = a := by
  simp [List.getD_eq_getElem?_getD, List.getElem?_set_self h]

theorem getD_set_ne {α : Type} {l : List α} {m n : Nat} (a d : α) (h : m ≠ n) :
    (l.set m a).getD n d = l.getD n d := by
  simp [List.getD_eq_getElem?_getD, List.getElem?_set_ne h]

theorem set_getD_self {α : Type} (l : List α) (n : Nat) (d : α) :
    l.set n (l.getD n d) = l := by
  induction l generalizing n with
  | nil => simp
  | cons a xs ih =>
    cases n with
    | zero => simp
    | succ k => simpa using ih k

theorem map_getD_range {α : Type} (l : List α) (d : α) :
    (List.range l.length).map (fun i => l.getD i d) = l := by
  induction l with
  | nil => rfl
  | cons a xs ih =>
    rw [List.length_cons, List.range_succ_eq_map, List.map_cons, List.map_map]
    show a :: (List.range xs.length).map (fun i => xs.getD i d) = a :: xs
    rw [ih]

theorem find?_congr {α : Type} {p q : α → Bool} :
    ∀ {l : List α}, (∀ a ∈ l, p a = q a) → l.find? p = l.find? q
  | [], _ => rfl
  | a :: l, h => by
    simp only [List.find?]
    rw [← h a (List.mem_cons_self a l)]
    cases p a
    · exact find?_congr (fun x hx => h x (List.mem_cons_of_mem a hx))
    · rfl

theorem find?_erase_of_ne {p : Nat → Bool} :
    ∀ {l : List Nat} {a x : Nat}, x ≠ a → l.find? p = some a →
      (l.erase x).find? p = some a := by
  intro l
  induction l with
  | nil => intro a x _ h; simp [List.find?] at h
  | cons b t ih =>
    intro a x hxa h
    rw [List.erase_cons]
    cases hpb : p b with
    | true =>
      rw [List.find?_cons_of_pos _ hpb] at h
      have hba : b = a := by injection h
      have hbx : (b == x) = false := by
        rw [beq_eq_false_iff_ne, hba]
        exact fun hh => hxa hh.symm
      simp only [hbx, Bool.false_eq_true, if_false]
      rw [List.find?_cons_of_pos _ hpb, hba]
    | false =>
      have hnpb : ¬ p b = true := by simp [hpb]
      rw [List.find?_cons_of_neg _ hnpb] at h
      cases hbx : b == x with
      | true =>
        simp only [hbx, if_true]
        exact h
      | false =>
        simp only [hbx, Bool.false_eq_true, if_false]
        rw [List.find?_cons_of_neg _ hnpb]
        exact ih hxa h

/-! ## Equation lemmas for the operations -/

theorem Financeiro.cadastrar_eq (s : Financeiro) (nome : String) (perc : Rat) :
    s.cadastrar_medico nome perc =
      (⟨s.heap ++ [⟨s.medicos.length + 1, nome, perc⟩],
        s.medicos ++ [s.heap.length], s.atendimentos⟩, s.heap.length) := rfl

theorem Financeiro.atualizar_eq_none {s : Financeiro} {mid : Nat}
    (nome : Option String) (perc : Option Rat)
    (h : s.obter_medico_por_id mid = none) :
    s.atualizar_medico mid nome perc = (s, false) := by
  unfold Financeiro.atualizar_medico
  rw [h]

theorem Financeiro.atualizar_eq_some {s : Financeiro} {mid ptr : Nat}
    (nome : Option String) (perc : Option Rat)
    (h : s.obter_medico_por_id mid = some ptr) :
    s.atualizar_medico mid nome perc =
      (⟨s.heap.set ptr ⟨(s.medicoAt ptr).id, nome.getD (s.medicoAt ptr).nome,
          perc.getD (s.medicoAt ptr).percentual_repasse⟩,
        s.medicos, s.atendimentos⟩, true) := by
  unfold Financeiro.atualizar_medico
  rw [h]

theorem Financeiro.remover_eq_none {s : Financeiro} {mid : Nat}
    (h : s.obter_medico_por_id mid = none) :
    s.remover_medico mid = (s, false) := by
  unfold Financeiro.remover_medico
  rw [h]

theorem Financeiro.remover_eq_some {s : Financeiro} {mid ptr : Nat}
    (h : s.obter_medico_por_id mid = some ptr) :
    s.remover_medico mid = (⟨s.heap, s.medicos.erase ptr, s.atendimentos⟩, true) := by
  unfold Financeiro.remover_medico
  rw [h]

theorem Financeiro.registrar_eq_none {s : Financeiro} {mid : Nat} (valor : Rat)
    (h : s.obter_medico_por_id mid = none) :
    s.registrar_atendimento mid valor = (s, none) := by
  unfold Financeiro.registrar_atendimento
  rw [h]

theorem Financeiro.registrar_eq_some {s : Financeiro} {mid ptr : Nat} (valor : Rat)
    (h : s.obter_medico_por_id mid = some ptr) :
    s.registrar_atendimento mid valor =
      (⟨s.heap, s.medicos, s.atendimentos ++ [⟨s.atendimentos.length + 1, ptr, valor⟩]⟩,
       some ⟨s.atendimentos.length + 1, ptr, valor⟩) := by
  unfold Financeiro.registrar_atendimento
  rw [h]

theorem Financeiro.step_cadastrar (s : Financeiro) (nome : String) (perc : Rat) :
    s.step (.cadastrar nome perc) = (s.cadastrar_medico nome perc).1 := rfl

theorem Financeiro.step_atualizar (s : Financeiro) (mid : Nat)
    (nome : Option String) (perc : Option Rat) :
    s.step (.atualizar mid nome perc) = (s.atualizar_medico mid nome perc).1 := rfl

theorem Financeiro.step_remover (s : Financeiro) (mid : Nat) :
    s.step (.remover mid) = (s.remover_medico mid).1 := rfl

theorem Financeiro.step_registrar (s : Financeiro) (mid : Nat) (valor : Rat) :
    s.step (.registrar mid valor) = (s.registrar_atendimento mid valor).1 := rfl

theorem Financeiro.run_nil (s : Financeiro) : s.run [] = s := rfl

theorem Financeiro.run_cons (s : Financeiro) (op : Op) (ops : List Op) :
    s.run (op :: ops) = (s.step op).run ops := rfl

/-! ## Well-formedness is preserved -/

theorem Financeiro.WF_step {s : Financeiro} (hwf : s.WF) (op : Op) : (s.step op).WF := by
  obtain ⟨hnd, hmb, hab⟩ := hwf
  cases op with
  | cadastrar nome perc =>
    show ((s.cadastrar_medico nome perc).1).WF
    rw [Financeiro.cadastrar_eq]
    refine ⟨?_, ?_, ?_⟩
    · rw [List.nodup_append]
      refine ⟨hnd, List.nodup_singleton _, ?_⟩
      intro a ha hb
      rw [List.mem_singleton] at hb
      subst hb
      exact absurd (hmb _ ha) (Nat.lt_irrefl _)
    · intro p hp
      simp only [List.length_append, List.length_singleton]
      rcases List.mem_append.mp hp with h1 | h1
      · exact Nat.lt_trans (hmb p h1) (Nat.lt_succ_self _)
      · rw [List.mem_singleton] at h1
        subst h1
        exact Nat.lt_succ_self _
    · intro a ha
      simp only [List.length_append, List.length_singleton]
      exact Nat.lt_trans (hab a ha) (Nat.lt_succ_self _)
  | atualizar mid nome perc =>
    show ((s.atualizar_medico mid nome perc).1).WF
    cases h : s.obter_medico_por_id mid with
    | none =>
      rw [Financeiro.atualizar_eq_none nome perc h]
      exact ⟨hnd, hmb, hab⟩
    | some ptr =>
      rw [Financeiro.atualizar_eq_some nome perc h]
      refine ⟨hnd, ?_, ?_⟩
      · intro p hp
        simp only [List.length_set]
        exact hmb p hp
      · intro a ha
        simp only [List.length_set]
        exact hab a ha
  | remover mid =>
    show ((s.remover_medico mid).1).WF
    cases h : s.obter_medico_por_id mid with
    | none =>
      rw [Financeiro.remover_eq_none h]
      exact ⟨hnd, hmb, hab⟩
    | some ptr =>
      rw [Financeiro.remover_eq_some h]
      exact ⟨hnd.erase ptr, fun p hp => hmb p (List.mem_of_mem_erase hp), hab⟩
  | registrar mid valor =>
    show ((s.registrar_atendimento mid valor).1).WF
    cases h : s.obter_medico_por_id mid with
    | none =>
      rw [Financeiro.registrar_eq_none valor h]
      exact ⟨hnd, hmb, hab⟩
    | some ptr =>
      rw [Financeiro.registrar_eq_some valor h]
      refine ⟨hnd, hmb, ?_⟩
      intro a ha
      rcases List.mem_append.mp ha with h1 | h1
      · exact hab a h1
      · rw [List.mem_singleton] at h1
        subst h1
        exact hmb ptr (List.mem_of_find?_eq_some h)

theorem Financeiro.WF_run {s : Financeiro} (hwf : s.WF) (ops : List Op) : (s.run ops).WF := by
  induction ops generalizing s with
  | nil => exact hwf
  | cons op ops ih =>
    rw [Financeiro.run_cons]
    exact ih (Financeiro.WF_step hwf op)

theorem Financeiro.WF_empty : Financeiro.empty.WF := by
  refine ⟨List.nodup_nil, ?_, ?_⟩ <;> intro x hx <;> simp [Financeiro.empty] at hx

/-! ## How each call acts on the doctor view -/

theorem Financeiro.medicoAt_cadastrar {s : Financeiro} {p : Nat} (hp : p < s.heap.length)
    (nome : String) (perc : Rat) :
    ((s.cadastrar_medico nome perc).1).medicoAt p = s.medicoAt p := by
  rw [Financeiro.cadastrar_eq]
  exact getD_append_left _ hp

theorem Financeiro.medicoAt_cadastrar_new (s : Financeiro) (nome : String) (perc : Rat) :
    ((s.cadastrar_medico nome perc).1).medicoAt s.heap.length =
      ⟨s.medicos.length + 1, nome, perc⟩ := by
  rw [Financeiro.cadastrar_eq]
  exact getD_append_length _ _ _

theorem Financeiro.medicosView_cadastrar {s : Financeiro}
    (hmb : ∀ p ∈ s.medicos, p < s.heap.length) (nome : String) (perc : Rat) :
    ((s.cadastrar_medico nome perc).1).medicosView =
      s.medicosView ++ [⟨s.medicos.length + 1, nome, perc⟩] := by
  simp only [Financeiro.medicosView, Financeiro.medicoAt, Financeiro.cadastrar_eq]
  rw [List.map_append]
  congr 1
  · exact List.map_congr_left (fun p hp => getD_append_left _ (hmb p hp))
  · rw [List.map_singleton, getD_append_length]

theorem Financeiro.medicosView_map_id_atualizar (s : Financeiro) (mid : Nat)
    (nome : Option String) (perc : Option Rat)
    (hmb : ∀ p ∈ s.medicos, p < s.heap.length) :
    ((s.atualizar_medico mid nome perc).1).medicosView.map Medico.id =
      s.medicosView.map Medico.id := by
  cases h : s.obter_medico_por_id mid with
  | none => rw [Financeiro.atualizar_eq_none nome perc h]
  | some ptr =>
    rw [Financeiro.atualizar_eq_some nome perc h]
    simp only [Financeiro.medicosView, Financeiro.medicoAt, List.map_map]
    apply List.map_congr_left
    intro p hp
    show ((s.heap.set ptr _).getD p defaultMedico).id = (s.heap.getD p defaultMedico).id
    by_cases hpq : ptr = p
    · subst hpq
      rw [getD_set_self _ _ (hmb ptr (List.mem_of_find?_eq_some h))]
    · rw [getD_set_ne _ _ hpq]

theorem Financeiro.medicosView_registrar (s : Financeiro) (mid : Nat) (valor : Rat) :
    ((s.registrar_atendimento mid valor).1).medicosView = s.medicosView := by
  cases h : s.obter_medico_por_id mid with
  | none => rw [Financeiro.registrar_eq_none valor h]
  | some ptr =>
    rw [Financeiro.registrar_eq_some valor h]
    rfl

/-! ## Sequential ids in removal-free histories -/

theorem idsSeq_empty : idsSeq Financeiro.empty := rfl

theorem idsSeq_step {s : Financeiro} (hwf : s.WF) (hid : idsSeq s) {op : Op}
    (hop : op.isRemover = false) : idsSeq (s.step op) := by
  obtain ⟨hnd, hmb, hab⟩ := hwf
  cases op with
  | cadastrar nome perc =>
    unfold idsSeq
    rw [Financeiro.step_cadastrar, Financeiro.medicosView_cadastrar hmb]
    have hlen : ((s.cadastrar_medico nome perc).1).medicos.length = s.medicos.length + 1 := by
      rw [Financeiro.cadastrar_eq]
      exact List.length_append s.medicos [s.heap.length]
    rw [hlen, List.map_append, hid, List.range_succ, List.map_append]
    rfl
  | atualizar mid nome perc =>
    unfold idsSeq
    rw [Financeiro.step_atualizar, Financeiro.medicosView_map_id_atualizar s mid nome perc hmb, hid]
    have hlen : ((s.atualizar_medico mid nome perc).1).medicos.length = s.medicos.length := by
      cases h : s.obter_medico_por_id mid with
      | none => rw [Financeiro.atualizar_eq_none nome perc h]
      | some ptr => rw [Financeiro.atualizar_eq_some nome perc h]
    rw [hlen]
  | remover mid => simp [Op.isRemover] at hop
  | registrar mid valor =>
    unfold idsSeq
    rw [Financeiro.step_registrar, Financeiro.medicosView_registrar, hid]
    have hlen : ((s.registrar_atendimento mid valor).1).medicos.length = s.medicos.length := by
      cases h : s.obter_medico_por_id mid with
      | none => rw [Financeiro.registrar_eq_none valor h]
      | some ptr => rw [Financeiro.registrar_eq_some valor h]
    rw [hlen]

theorem idsSeq_run {s : Financeiro} (hwf : s.WF) (hid : idsSeq s) {ops : List Op}
    (hops : ∀ op ∈ ops, op.isRemover = false) : idsSeq (s.run ops) := by
  induction ops generalizing s with
  | nil => exact hid
  | cons op ops ih =>
    rw [Financeiro.run_cons]
    exact ih (Financeiro.WF_step hwf op)
      (idsSeq_step hwf hid (hops op (List.mem_cons_self op ops)))
      (fun o ho => hops o (List.mem_cons_of_mem op ho))

/-! ## Stability of id lookup -/

theorem heap_length_step_le (s : Financeiro) (op : Op) :
    s.heap.length ≤ (s.step op).heap.length := by
  cases op with
  | cadastrar nome perc =>
    rw [Financeiro.step_cadastrar, Financeiro.cadastrar_eq]
    simp
  | atualizar mid nome perc =>
    rw [Financeiro.step_atualizar]
    cases h : s.obter_medico_por_id mid with
    | none => rw [Financeiro.atualizar_eq_none nome perc h]
    | some ptr =>
      rw [Financeiro.atualizar_eq_some nome perc h]
      simp
  | remover mid =>
    rw [Financeiro.step_remover]
    cases h : s.obter_medico_por_id mid with
    | none => rw [Financeiro.remover_eq_none h]
    | some ptr => rw [Financeiro.remover_eq_some h]
  | registrar mid valor =>
    rw [Financeiro.step_registrar]
    cases h : s.obter_medico_por_id mid with
    | none => rw [Financeiro.registrar_eq_none valor h]
    | some ptr => rw [Financeiro.registrar_eq_some valor h]

theorem firstWithId_step {s : Financeiro} {ptr i : Nat} (hwf : s.WF)
    (hlt : ptr < s.heap.length)
    (hst : ptr ∉ s.medicos ∨ firstWithId s ptr i) (op : Op) :
    ptr ∉ (s.step op).medicos ∨ firstWithId (s.step op) ptr i := by
  obtain ⟨hnd, hmb, hab⟩ := hwf
  cases op with
  | cadastrar nome perc =>
    rw [Financeiro.step_cadastrar]
    rcases hst with hout | ⟨hi, hfind⟩
    · left
      rw [Financeiro.cadastrar_eq]
      intro hmem
      rcases List.mem_append.mp hmem with h1 | h1
      · exact hout h1
      · rw [List.mem_singleton] at h1
        exact absurd (h1 ▸ hlt) (Nat.lt_irrefl _)
    · right
      unfold firstWithId
      refine ⟨?_, ?_⟩
      · rw [Financeiro.medicoAt_cadastrar hlt]
        exact hi
      show ((s.cadastrar_medico nome perc).1).medicos.find?
        (fun p => (((s.cadastrar_medico nome perc).1).medicoAt p).id == i) = some ptr
      rw [Financeiro.cadastrar_eq]
      rw [List.find?_append]
      have hpre : (s.medicos.find? fun p =>
          (((s.heap ++ [(⟨s.medicos.length + 1, nome, perc⟩ : Medico)]).getD p defaultMedico).id == i)) =
          s.medicos.find? (fun p => ((s.medicoAt p).id == i)) := by
        apply find?_congr
        intro p hp
        rw [getD_append_left _ (hmb p hp)]
        rfl
      have hfind2 : s.medicos.find? (fun p => ((s.medicoAt p).id == i)) = some ptr := hfind
      show (s.medicos.find? fun p =>
          (((s.heap ++ [(⟨s.medicos.length + 1, nome, perc⟩ : Medico)]).getD p defaultMedico).id == i)).or
        ([s.heap.length].find? fun p =>
          (((s.heap ++ [(⟨s.medicos.length + 1, nome, perc⟩ : Medico)]).getD p defaultMedico).id == i)) =
        some ptr
      rw [hpre, hfind2, Option.or_some]
  | atualizar mid nome perc =>
    rw [Financeiro.step_atualizar]
    cases h : s.obter_medico_por_id mid with
    | none =>
      rw [Financeiro.atualizar_eq_none nome perc h]
      exact hst
    | some q =>
      have hq : q ∈ s.medicos := List.mem_of_find?_eq_some h
      have hqlt : q < s.heap.length := hmb q hq
      rw [Financeiro.atualizar_eq_some nome perc h]
      rcases hst with hout | ⟨hi, hfind⟩
      · exact Or.inl hout
      · right
        unfold firstWithId
        refine ⟨?_, ?_⟩
        · show (((s.heap.set q _).getD ptr defaultMedico)).id = i
          by_cases hqp : q = ptr
          · subst hqp
            rw [getD_set_self _ _ hqlt]
            exact hi
          · rw [getD_set_ne _ _ hqp]
            exact hi
        · show s.medicos.find?
            (fun p => (((s.heap.set q _).getD p defaultMedico)).id == i) = some ptr
          rw [find?_congr (q := fun p => ((s.medicoAt p).id == i)) ?_]
          · exact hfind
          · intro p hp
            by_cases hqp : q = p
            · subst hqp
              rw [getD_set_self _ _ hqlt]
            · rw [getD_set_ne _ _ hqp]
              rfl
  | remover mid =>
    rw [Financeiro.step_remover]
    cases h : s.obter_medico_por_id mid with
    | none =>
      rw [Financeiro.remover_eq_none h]
      exact hst
    | some q =>
      rw [Financeiro.remover_eq_some h]
      rcases hst with hout | ⟨hi, hfind⟩
      · left
        intro hmem
        exact hout (List.mem_of_mem_erase hmem)
      · by_cases hqp : q = ptr
        · subst hqp
          left
          intro hmem
          exact absurd ((hnd.mem_erase_iff).mp hmem).1 (fun hh => hh rfl)
        · right
          refine ⟨hi, ?_⟩
          show (s.medicos.erase q).find? (fun p => ((s.medicoAt p).id == i)) = some ptr
          exact find?_erase_of_ne hqp hfind
  | registrar mid valor =>
    rw [Financeiro.step_registrar]
    cases h : s.obter_medico_por_id mid with
    | none =>
      rw [Financeiro.registrar_eq_none valor h]
      exact hst
    | some q =>
      rw [Financeiro.registrar_eq_some valor h]
      rcases hst with hout | ⟨hi, hfind⟩
      · exact Or.inl hout
      · exact Or.inr ⟨hi, hfind⟩

theorem firstWithId_run {s : Financeiro} {ptr i : Nat} (hwf : s.WF)
    (hlt : ptr < s.heap.length)
    (hst : ptr ∉ s.medicos ∨ firstWithId s ptr i) (ops : List Op) :
    ptr ∉ (s.run ops).medicos ∨ firstWithId (s.run ops) ptr i := by
  induction ops generalizing s with
  | nil => exact hst
  | cons op ops ih =>
    rw [Financeiro.run_cons]
    exact ih (Financeiro.WF_step hwf op)
      (Nat.lt_of_lt_of_le hlt (heap_length_step_le s op))
      (firstWithId_step hwf hlt hst op)

/-! ## Persistence lemmas -/

theorem insertAll_of_nodup {α : Type} (idOf : α → Nat) (rows : List α) :
    ∀ acc : List α, ((acc ++ rows).map idOf).Nodup →
      insertAll idOf acc rows = some (acc ++ rows) := by
  induction rows with
  | nil =>
    intro acc _
    rw [List.append_nil]
    rfl
  | cons r rs ih =>
    intro acc h
    have hnotin : (acc.any fun x => idOf x == idOf r) = false := by
      rw [List.any_eq_false]
      intro x hx hbeq
      rw [beq_iff_eq] at hbeq
      rw [List.map_append, List.nodup_append] at h
      refine h.2.2 (List.mem_map_of_mem idOf hx) ?_
      rw [List.map_cons, hbeq]
      exact List.mem_cons_self _ _
    show (match insertRow idOf acc r with
      | none => none
      | some t2 => insertAll idOf t2 rs) = some (acc ++ r :: rs)
    unfold insertRow
    simp only [hnotin, Bool.false_eq_true, if_false]
    show insertAll idOf (acc ++ [r]) rs = some (acc ++ r :: rs)
    rw [List.append_cons acc r rs]
    apply ih
    rw [← List.append_cons]
    exact h

theorem salvar_of_nodup (s : Financeiro)
    (hmd : (s.medicosView.map Medico.id).Nodup)
    (had : (s.atendimentosView.map AtendimentoRow.id).Nodup) :
    s.salvar_dados = some ⟨s.medicosView, s.atendimentosView⟩ := by
  unfold Financeiro.salvar_dados
  rw [insertAll_of_nodup Medico.id s.medicosView [] (by simpa using hmd)]
  rw [insertAll_of_nodup AtendimentoRow.id s.atendimentosView [] (by simpa using had)]
  rfl

theorem insertSortedBy_perm {α : Type} (idOf : α → Nat) (r : α) :
    ∀ l : List α, (insertSortedBy idOf r l).Perm (r :: l)
  | [] => List.Perm.refl _
  | x :: xs => by
    unfold insertSortedBy
    by_cases h : idOf r < idOf x
    · rw [if_pos h]
    · rw [if_neg h]
      exact ((insertSortedBy_perm idOf r xs).cons x).trans (List.Perm.swap r x xs)

theorem sortById_perm {α : Type} (idOf : α → Nat) :
    ∀ l : List α, (sortById idOf l).Perm l
  | [] => List.Perm.refl _
  | x :: xs => by
    unfold sortById
    exact (insertSortedBy_perm idOf x (sortById idOf xs)).trans
      ((sortById_perm idOf xs).cons x)

theorem carregar_medicosView (db : DB) :
    (carregar_dados db).medicosView = sortById Medico.id db.medicos := by
  show (List.range (sortById Medico.id db.medicos).length).map
    (fun p => (sortById Medico.id db.medicos).getD p defaultMedico) = _
  exact map_getD_range _ _

theorem find?_range_isSome {α : Type} (l : List α) (d : α) (c : α → Bool) :
    ((List.range l.length).find? (fun p => c (l.getD p d))).isSome = l.any c := by
  rw [Bool.eq_iff_iff, List.find?_isSome, List.any_eq_true]
  constructor
  · rintro ⟨p, hp, hc⟩
    rw [List.mem_range] at hp
    refine ⟨l.getD p d, ?_, hc⟩
    rw [List.getD_eq_getElem?_getD, List.getElem?_eq_getElem hp]
    exact List.getElem_mem hp
  · rintro ⟨x, hx, hcx⟩
    obtain ⟨n, hn, hxn⟩ := List.mem_iff_getElem.mp hx
    refine ⟨n, List.mem_range.mpr hn, ?_⟩
    rw [List.getD_eq_getElem?_getD, List.getElem?_eq_getElem hn]
    show c (l.get ⟨n, hn⟩) = true
    rw [List.get_eq_getElem, hxn]
    exact hcx

theorem filterMap_guard_eq_filter {α : Type} (c : α → Bool) (l : List α) :
    (l.filterMap fun a => if c a then some a else none) = l.filter c := by
  induction l with
  | nil => rfl
  | cons x xs ih =>
    cases hc : c x
    · simp [List.filterMap_cons, List.filter_cons, hc, ih]
    · simp [List.filterMap_cons, List.filter_cons, hc, ih]

theorem any_eq_of_perm {α : Type} {l1 l2 : List α} (h : l1.Perm l2) (p : α → Bool) :
    l1.any p = l2.any p := by
  rw [Bool.eq_iff_iff, List.any_eq_true, List.any_eq_true]
  constructor
  · rintro ⟨x, hx, hp⟩
    exact ⟨x, h.mem_iff.mp hx, hp⟩
  · rintro ⟨x, hx, hp⟩
    exact ⟨x, h.mem_iff.mpr hx, hp⟩

theorem link_map_view (db : DB) (r : AtendimentoRow) :
    (db.link r).map db.loadedRowOf = if db.loadCond r then some r else none := by
  have hiff : ((List.range db.loadedMedicos.length).find?
        (fun p => (db.loadedMedicos.getD p defaultMedico).id == r.medico_id)).isSome =
      db.loadedMedicos.any (fun m => m.id == r.medico_id) :=
    find?_range_isSome db.loadedMedicos defaultMedico (fun m => m.id == r.medico_id)
  unfold DB.link DB.loadCond
  rw [← hiff]
  cases hf : (List.range db.loadedMedicos.length).find?
      (fun p => (db.loadedMedicos.getD p defaultMedico).id == r.medico_id) with
  | none => rfl
  | some p =>
    have hid : (db.loadedMedicos.getD p defaultMedico).id = r.medico_id := by
      have h2 := List.find?_some hf
      rwa [beq_iff_eq] at h2
    show some (db.loadedRowOf ⟨r.id, p, r.valor⟩) =
      if (some p).isSome = true then some r else none
    unfold DB.loadedRowOf
    show some (⟨r.id, (db.loadedMedicos.getD p defaultMedico).id, r.valor⟩ : AtendimentoRow) = _
    rw [hid]
    rfl

theorem carregar_atendimentosView (db : DB) :
    (carregar_dados db).atendimentosView =
      (sortById AtendimentoRow.id db.atendimentos).filter db.loadCond :=
  calc (carregar_dados db).atendimentosView
      = ((sortById AtendimentoRow.id db.atendimentos).filterMap db.link).map
          db.loadedRowOf := rfl
    _ = (sortById AtendimentoRow.id db.atendimentos).filterMap
          (fun r => (db.link r).map db.loadedRowOf) :=
        List.map_filterMap db.link db.loadedRowOf _
    _ = (sortById AtendimentoRow.id db.atendimentos).filterMap
          (fun r => if db.loadCond r then some r else none) := by
        rw [funext (link_map_view db)]
    _ = (sortById AtendimentoRow.id db.atendimentos).filter db.loadCond :=
        filterMap_guard_eq_filter db.loadCond _

/-! ## Claims -/

/-- C1, counterexample: starting from the empty store, register two
doctors, remove the first (id 1) and register a third.  The new doctor
gets id `len + 1 = 2`, which the still-live second doctor already
carries: the in-memory ids are `[2, 2]`, not pairwise distinct. -/
theorem C1_cex :
    sColl.medicosView.map Medico.id = [2, 2] ∧
    ¬ (sColl.medicosView.map Medico.id).Nodup := by
  constructor
  · rfl
  · intro h
    have := List.rel_of_pairwise_cons h (List.mem_singleton.mpr rfl)
    exact this rfl

/-- C1 (amended): in every state reachable from the empty store by
register_doctor, update_doctor and register_appointment calls — i.e.
with no remove_doctor in the history — the doctor ids are pairwise
distinct (they are exactly 1, …, n in order).  After a removal, a
subsequent registration can duplicate a live id (see the
counterexample). -/
theorem C1_doctor_ids_unique_without_removals (ops : List Op)
    (hops : ∀ op ∈ ops, op.isRemover = false) :
    ((Financeiro.empty.run ops).medicosView.map Medico.id).Nodup := by
  have h := idsSeq_run Financeiro.WF_empty idsSeq_empty hops
  rw [h]
  exact (List.nodup_range _).map (fun a b hab => Nat.succ_injective hab)

/-- Witness for C1: a removal-free two-registration history. -/
theorem C1_witness :
    ((Financeiro.empty.run [Op.cadastrar "A" 10, Op.cadastrar "B" 20]).medicosView.map
      Medico.id).Nodup :=
  C1_doctor_ids_unique_without_removals [Op.cadastrar "A" 10, Op.cadastrar "B" 20]
    (by intro op hop
        rcases List.mem_cons.mp hop with h | h
        · rw [h]; rfl
        · rw [List.mem_singleton.mp h]; rfl)

/-- C2, counterexample: in the collision state, doctor "C" (heap object
2) is registered and never removed, carries id 2, yet
`obter_medico_por_id 2` returns heap object 1 — doctor "B" — because
"B" comes first in the list with the same id. -/
theorem C2_cex :
    2 ∈ sColl.medicos ∧ (sColl.medicoAt 2).id = 2 ∧ (sColl.medicoAt 2).nome = "C" ∧
    sColl.obter_medico_por_id 2 = some 1 ∧ (sColl.medicoAt 1).nome = "B" := by
  refine ⟨?_, rfl, rfl, rfl, rfl⟩
  show 2 ∈ [1, 2]
  exact List.mem_cons.mpr (Or.inr (List.mem_singleton.mpr rfl))

/-- C2 (amended): (1) a freshly registered doctor is retrieved by its id
provided no live doctor already carries the new id `count + 1` (always
true in removal-free histories); (2) once a doctor object `ptr` is what
`get_doctor` returns for its id `i`, then after any further sequence of
calls either that object has been removed from the collection or
`get_doctor i` still returns exactly that object (updates mutate it in
place, so it is the same object throughout). -/
theorem C2_get_doctor_stable :
    (∀ (s : Financeiro) (nome : String) (perc : Rat), s.WF →
      (∀ p ∈ s.medicos, (s.medicoAt p).id ≠ s.medicos.length + 1) →
      ((s.cadastrar_medico nome perc).1).obter_medico_por_id
          (((s.cadastrar_medico nome perc).1).medicoAt ((s.cadastrar_medico nome perc).2)).id
        = some ((s.cadastrar_medico nome perc).2)) ∧
    (∀ (s : Financeiro) (ptr i : Nat) (ops : List Op), s.WF →
      (s.medicoAt ptr).id = i → s.obter_medico_por_id i = some ptr →
      ptr ∉ (s.run ops).medicos ∨
        (((s.run ops).medicoAt ptr).id = i ∧
          (s.run ops).obter_medico_por_id i = some ptr)) := by
  constructor
  · intro s nome perc hwf hfresh
    have hmb := hwf.2.1
    have hsnd : (s.cadastrar_medico nome perc).2 = s.heap.length := rfl
    rw [hsnd]
    rw [Financeiro.medicoAt_cadastrar_new]
    show ((s.cadastrar_medico nome perc).1).medicos.find?
      (fun p => (((s.cadastrar_medico nome perc).1).medicoAt p).id == s.medicos.length + 1) =
      some ((s.cadastrar_medico nome perc).2)
    rw [Financeiro.cadastrar_eq]
    rw [List.find?_append]
    have hpre : (s.medicos.find? fun p =>
        (((s.heap ++ [(⟨s.medicos.length + 1, nome, perc⟩ : Medico)]).getD p
          defaultMedico).id == s.medicos.length + 1)) = none := by
      rw [List.find?_eq_none]
      intro p hp
      rw [getD_append_left _ (hmb p hp)]
      simp only [beq_iff_eq]
      exact hfresh p hp
    show ((s.medicos.find? fun p =>
        (((s.heap ++ [(⟨s.medicos.length + 1, nome, perc⟩ : Medico)]).getD p
          defaultMedico).id == s.medicos.length + 1)).or
      ([s.heap.length].find? fun p =>
        (((s.heap ++ [(⟨s.medicos.length + 1, nome, perc⟩ : Medico)]).getD p
          defaultMedico).id == s.medicos.length + 1))) = some s.heap.length
    rw [hpre]
    show (none.or ([s.heap.length].find? fun p =>
        (((s.heap ++ [(⟨s.medicos.length + 1, nome, perc⟩ : Medico)]).getD p
          defaultMedico).id == s.medicos.length + 1))) = some s.heap.length
    rw [Option.none_or]
    rw [List.find?_singleton]
    rw [getD_append_length]
    simp
  · intro s ptr i ops hwf hi hfind
    have hlt : ptr < s.heap.length := hwf.2.1 ptr (List.mem_of_find?_eq_some hfind)
    rcases firstWithId_run hwf hlt (Or.inr ⟨hi, hfind⟩) ops with h | ⟨h1, h2⟩
    · exact Or.inl h
    · exact Or.inr ⟨h1, h2⟩

/-- Witness for C2: register "Dra. Ana" into the empty store (part 1),
and her lookup is stable across a later registration (part 2). -/
theorem C2_witness :
    (((Financeiro.empty.cadastrar_medico "Dra. Ana" 20).1).obter_medico_por_id
        ((((Financeiro.empty.cadastrar_medico "Dra. Ana" 20).1).medicoAt
          ((Financeiro.empty.cadastrar_medico "Dra. Ana" 20).2)).id)
      = some ((Financeiro.empty.cadastrar_medico "Dra. Ana" 20).2)) ∧
    (0 ∉ (sAna.run [Op.cadastrar "B" 30]).medicos ∨
      (((sAna.run [Op.cadastrar "B" 30]).medicoAt 0).id = 1 ∧
        (sAna.run [Op.cadastrar "B" 30]).obter_medico_por_id 1 = some 0)) :=
  ⟨C2_get_doctor_stable.1 Financeiro.empty "Dra. Ana" 20 Financeiro.WF_empty
      (by intro p hp; simp [Financeiro.empty] at hp),
   C2_get_doctor_stable.2 sAna 0 1 [Op.cadastrar "B" 30] (by decide) (by decide) (by decide)⟩

/-- C3: the payout of an appointment is always computed from the
referenced doctor object's *current* percentage.  If `obter_medico_por_id`
resolves `mid` to the object `ptr` that appointment `a` references, then
after `atualizar_medico mid None (some p)` the appointment list is
untouched (no re-registration) and `a`'s payout is `a.valor * p / 100`
with the *new* percentage `p`. -/
theorem C3_payout_recomputed_live (s : Financeiro) (mid ptr : Nat) (p : Rat)
    (a : Atendimento) (hwf : s.WF)
    (h : s.obter_medico_por_id mid = some ptr) (_ha : a ∈ s.atendimentos)
    (hptr : a.medicoPtr = ptr) :
    s.calcular_repasse a =
      a.valor * ((s.medicoAt a.medicoPtr).percentual_repasse / 100) ∧
    ((s.atualizar_medico mid none (some p)).1).atendimentos = s.atendimentos ∧
    ((s.atualizar_medico mid none (some p)).1).calcular_repasse a =
      a.valor * (p / 100) := by
  rw [Financeiro.atualizar_eq_some none (some p) h]
  refine ⟨rfl, rfl, ?_⟩
  show a.valor * (((s.heap.set ptr _).getD a.medicoPtr defaultMedico).percentual_repasse / 100)
    = a.valor * (p / 100)
  rw [hptr, getD_set_self _ _ (hwf.2.1 ptr (List.mem_of_find?_eq_some h))]
  rfl

/-- Witness for C3: raise Ana's percentage from 20 to 50; the existing
appointment of 100 now pays out 100 * 50 / 100. -/
theorem C3_witness :
    (sReg.calcular_repasse ⟨1, 0, 100⟩ =
      (100 : Rat) * ((sReg.medicoAt (⟨1, 0, (100 : Rat)⟩ : Atendimento).medicoPtr).percentual_repasse / 100)) ∧
    ((sReg.atualizar_medico 1 none (some 50)).1).atendimentos = sReg.atendimentos ∧
    ((sReg.atualizar_medico 1 none (some 50)).1).calcular_repasse ⟨1, 0, 100⟩ =
      (100 : Rat) * ((50 : Rat) / 100) :=
  C3_payout_recomputed_live sReg 1 0 50 ⟨1, 0, 100⟩ (by decide) (by decide)
    (by decide) rfl

/-- C5: `registrar_atendimento` on an unresolvable doctor id returns
`None` and leaves the entire state — in particular the appointment
collection — unchanged; on a resolvable id it appends exactly one
appointment with id `count(existing appointments) + 1`. -/
theorem C5_register_appointment_absent (s : Financeiro) (mid : Nat) (valor : Rat) :
    (s.obter_medico_por_id mid = none → s.registrar_atendimento mid valor = (s, none)) ∧
    (∀ ptr, s.obter_medico_por_id mid = some ptr →
      s.registrar_atendimento mid valor =
        (⟨s.heap, s.medicos,
          s.atendimentos ++ [⟨s.atendimentos.length + 1, ptr, valor⟩]⟩,
         some ⟨s.atendimentos.length + 1, ptr, valor⟩)) :=
  ⟨fun h => Financeiro.registrar_eq_none valor h,
   fun _ h => Financeiro.registrar_eq_some valor h⟩

/-- Witness for C5: id 7 is unknown (no change); id 1 resolves (append). -/
theorem C5_witness :
    sAna.registrar_atendimento 7 250 = (sAna, none) ∧
    sAna.registrar_atendimento 1 250 =
      (⟨sAna.heap, sAna.medicos,
        sAna.atendimentos ++ [⟨sAna.atendimentos.length + 1, 0, 250⟩]⟩,
       some ⟨sAna.atendimentos.length + 1, 0, 250⟩) :=
  ⟨(C5_register_appointment_absent sAna 7 250).1 (by decide),
   (C5_register_appointment_absent sAna 1 250).2 0 (by decide)⟩

/-- C6, counterexample: `registrar_atendimento` itself accepts a
negative amount for an existing doctor — it returns the appointment
(truthy) and appends it to the collection. -/
theorem C6_cex :
    ((sAna.registrar_atendimento 1 (-50)).2).isSome = true ∧
    (sAna.registrar_atendimento 1 (-50)).1.atendimentos = [⟨1, 0, -50⟩] := by
  exact ⟨rfl, rfl⟩

/-- C6 (amended): the `amount > 0` rule is enforced by the presentation
layer, not by `registrar_atendimento`: the POST branch of the
`/atendimentos/novo` route rejects `valor ≤ 0` before calling the store
(no appointment is added, no exception), and for `valor > 0` it simply
delegates to `registrar_atendimento`, which itself accepts any amount
for a resolving doctor id. -/
theorem C6_amount_guard_in_route (s : Financeiro) (mid : Nat) (valor : Rat) :
    (valor ≤ 0 → novo_atendimento_post s mid valor = (s, none)) ∧
    (0 < valor → novo_atendimento_post s mid valor = s.registrar_atendimento mid valor) := by
  constructor
  · intro h
    unfold novo_atendimento_post
    rw [if_neg (not_lt.mpr h)]
  · intro h
    unfold novo_atendimento_post
    rw [if_pos h]

/-- Witness for C6: the route rejects −50 and forwards 250. -/
theorem C6_witness :
    novo_atendimento_post sAna 1 (-50) = (sAna, none) ∧
    novo_atendimento_post sAna 1 250 = sAna.registrar_atendimento 1 250 :=
  ⟨(C6_amount_guard_in_route sAna 1 (-50)).1 (by norm_num),
   (C6_amount_guard_in_route sAna 1 250).2 (by norm_num)⟩

/-- C7: the financial report is exactly the stated aggregation — total
billed is the sum of amounts, total payout the sum of live-computed
payouts, net their difference, plus the two counts — and the net is 0
when there are no appointments.  In the embedding
`relatorio_financeiro` is a pure function of the state (it returns only
the report), so it mutates nothing. -/
theorem C7_financial_report (s : Financeiro) :
    (s.relatorio_financeiro).faturamento_total =
      (s.atendimentos.map (fun a => a.valor)).sum ∧
    (s.relatorio_financeiro).total_repasse =
      (s.atendimentos.map (fun a => s.calcular_repasse a)).sum ∧
    (s.relatorio_financeiro).lucro_liquido =
      (s.relatorio_financeiro).faturamento_total - (s.relatorio_financeiro).total_repasse ∧
    (s.relatorio_financeiro).qtd_atendimentos = s.atendimentos.length ∧
    (s.relatorio_financeiro).qtd_medicos = s.medicos.length ∧
    (s.atendimentos = [] → (s.relatorio_financeiro).lucro_liquido = 0) := by
  refine ⟨rfl, rfl, rfl, rfl, rfl, ?_⟩
  intro h
  show (s.atendimentos.map (fun a => a.valor)).sum -
    (s.atendimentos.map (fun a => s.calcular_repasse a)).sum = 0
  rw [h]
  norm_num

/-- Witness for C7: the empty store has net 0. -/
theorem C7_witness : (Financeiro.empty.relatorio_financeiro).lucro_liquido = 0 :=
  (C7_financial_report Financeiro.empty).2.2.2.2.2 rfl

/-- C8: `atualizar_medico` is a partial update.  It returns `false`
(without raising) exactly when no doctor has the id — and then the whole
state is unchanged.  On success it returns `true`, leaves the doctor
list and the appointment list untouched, rewrites the targeted object so
that every `None` field keeps its old value, and leaves every other heap
object (hence every other doctor) unchanged. -/
theorem C8_partial_update_doctor (s : Financeiro) (mid : Nat) (nome : Option String)
    (perc : Option Rat) (hwf : s.WF) :
    (s.obter_medico_por_id mid = none → s.atualizar_medico mid nome perc = (s, false)) ∧
    (∀ ptr, s.obter_medico_por_id mid = some ptr →
      (s.atualizar_medico mid nome perc).2 = true ∧
      ((s.atualizar_medico mid nome perc).1).medicos = s.medicos ∧
      ((s.atualizar_medico mid nome perc).1).atendimentos = s.atendimentos ∧
      ((s.atualizar_medico mid nome perc).1).medicoAt ptr =
        ⟨(s.medicoAt ptr).id, nome.getD (s.medicoAt ptr).nome,
          perc.getD (s.medicoAt ptr).percentual_repasse⟩ ∧
      (∀ q, q ≠ ptr → ((s.atualizar_medico mid nome perc).1).medicoAt q = s.medicoAt q)) := by
  constructor
  · exact fun h => Financeiro.atualizar_eq_none nome perc h
  · intro ptr h
    rw [Financeiro.atualizar_eq_some nome perc h]
    refine ⟨rfl, rfl, rfl, ?_, ?_⟩
    · show (s.heap.set ptr _).getD ptr defaultMedico = _
      rw [getD_set_self _ _ (hwf.2.1 ptr (List.mem_of_find?_eq_some h))]
    · intro q hq
      show (s.heap.set ptr _).getD q defaultMedico = _
      rw [getD_set_ne _ _ (fun hh => hq hh.symm)]
      rfl

/-- Witness for C8: updating the unknown id 9 fails and changes
nothing; updating id 1 with a new name and percentage succeeds and
rewrites exactly doctor object 0. -/
theorem C8_witness :
    (sAna.atualizar_medico 9 (some "X") none = (sAna, false)) ∧
    ((sAna.atualizar_medico 1 (some "Dra. B") (some 35)).2 = true ∧
     ((sAna.atualizar_medico 1 (some "Dra. B") (some 35)).1).medicos = sAna.medicos ∧
     ((sAna.atualizar_medico 1 (some "Dra. B") (some 35)).1).atendimentos =
       sAna.atendimentos ∧
     ((sAna.atualizar_medico 1 (some "Dra. B") (some 35)).1).medicoAt 0 =
       ⟨(sAna.medicoAt 0).id, (some "Dra. B").getD (sAna.medicoAt 0).nome,
         (some (35 : Rat)).getD (sAna.medicoAt 0).percentual_repasse⟩) := by
  have h2 := (C8_partial_update_doctor sAna 1 (some "Dra. B") (some (35 : Rat))
    (by decide)).2 0 (by decide)
  exact ⟨(C8_partial_update_doctor sAna 9 (some "X") none (by decide)).1 (by decide),
    h2.1, h2.2.1, h2.2.2.1, h2.2.2.2.1⟩

/-- C9: `remover_medico` returns `false` and changes nothing when the id
is unknown.  On success its whole effect is to drop the (first) pointer
with that id from the doctor list: the heap and the appointment list are
untouched, so `listar_atendimentos` still returns every appointment —
including those referencing the removed doctor — and the financial
report's totals (billed, payout, net) and appointment count are
identical; no cascade and no blocking happens. -/
theorem C9_remove_doctor_no_cascade (s : Financeiro) (mid : Nat) :
    (s.obter_medico_por_id mid = none → s.remover_medico mid = (s, false)) ∧
    (∀ ptr, s.obter_medico_por_id mid = some ptr →
      s.remover_medico mid = (⟨s.heap, s.medicos.erase ptr, s.atendimentos⟩, true) ∧
      ((s.remover_medico mid).1).listar_atendimentos = s.listar_atendimentos ∧
      ((s.remover_medico mid).1).relatorio_financeiro.faturamento_total =
        s.relatorio_financeiro.faturamento_total ∧
      ((s.remover_medico mid).1).relatorio_financeiro.total_repasse =
        s.relatorio_financeiro.total_repasse ∧
      ((s.remover_medico mid).1).relatorio_financeiro.lucro_liquido =
        s.relatorio_financeiro.lucro_liquido ∧
      ((s.remover_medico mid).1).relatorio_financeiro.qtd_atendimentos =
        s.relatorio_financeiro.qtd_atendimentos) := by
  constructor
  · exact fun h => Financeiro.remover_eq_none h
  · intro ptr h
    refine ⟨Financeiro.remover_eq_some h, ?_, ?_, ?_, ?_, ?_⟩ <;>
      rw [Financeiro.remover_eq_some h] <;> rfl

/-- Witness for C9: removing the unknown id 3 fails; removing Ana keeps
her appointment and the report's money figures. -/
theorem C9_witness :
    (sReg.remover_medico 3 = (sReg, false)) ∧
    (sReg.remover_medico 1 =
      (⟨sReg.heap, sReg.medicos.erase 0, sReg.atendimentos⟩, true) ∧
     ((sReg.remover_medico 1).1).listar_atendimentos = sReg.listar_atendimentos ∧
     ((sReg.remover_medico 1).1).relatorio_financeiro.faturamento_total =
       sReg.relatorio_financeiro.faturamento_total ∧
     ((sReg.remover_medico 1).1).relatorio_financeiro.total_repasse =
       sReg.relatorio_financeiro.total_repasse ∧
     ((sReg.remover_medico 1).1).relatorio_financeiro.lucro_liquido =
       sReg.relatorio_financeiro.lucro_liquido ∧
     ((sReg.remover_medico 1).1).relatorio_financeiro.qtd_atendimentos =
       sReg.relatorio_financeiro.qtd_atendimentos) :=
  ⟨(C9_remove_doctor_no_cascade sReg 3).1 (by decide),
   (C9_remove_doctor_no_cascade sReg 1).2 0 (by decide)⟩

/-- C10: a no-op update — both fields `None` — on a registered doctor
returns `true` and leaves the state exactly as it was (every doctor,
every appointment, everything). -/
theorem C10_noop_update_succeeds (s : Financeiro) (mid ptr : Nat)
    (h : s.obter_medico_por_id mid = some ptr) :
    s.atualizar_medico mid none none = (s, true) := by
  rw [Financeiro.atualizar_eq_some none none h]
  have hset : s.heap.set ptr
      (⟨(s.medicoAt ptr).id, (none : Option String).getD (s.medicoAt ptr).nome,
        (none : Option Rat).getD (s.medicoAt ptr).percentual_repasse⟩ : Medico) = s.heap := by
    show s.heap.set ptr (s.medicoAt ptr) = s.heap
    exact set_getD_self s.heap ptr defaultMedico
  rw [hset]

/-- Witness for C10: the no-op update on Ana's id. -/
theorem C10_witness : sAna.atualizar_medico 1 none none = (sAna, true) :=
  C10_noop_update_succeeds sAna 1 0 (by decide)

/-- C4, counterexample: two reachable states break the claim as stated.
(1) In the collision state `sColl` (doctor ids [2, 2]) persisting fails
outright — both rows hit the same `INTEGER PRIMARY KEY`, so the second
INSERT raises and no round trip happens at all.  (2) In `sSwap` the
in-memory doctor collection is [id 3, id 2] but the reload returns
ascending id order [id 2, id 3]: the reloaded collection is a
permutation of the in-memory one, not the identical sequence. -/
theorem C4_cex :
    sColl.salvar_dados = none ∧
    (sSwap.salvar_dados.map (fun db => (carregar_dados db).medicosView)) =
      some [⟨2, "D", 40⟩, ⟨3, "C", 30⟩] ∧
    sSwap.medicosView = [⟨3, "C", 30⟩, ⟨2, "D", 40⟩] := by
  refine ⟨by decide, by decide, by decide⟩

/-- C4 (amended): for every in-memory state whose doctor ids are
pairwise distinct and whose appointment ids are pairwise distinct
(appointment ids always are; doctor ids can collide after removals, and
then persisting fails as in the counterexample), `salvar_dados`
succeeds, writing exactly the two observable collections, and reloading
the saved store with `carregar_dados` reproduces the doctor collection
up to reordering (ascending id order) and reproduces, up to the same
reordering, exactly those appointments whose stored doctor id still
belongs to some registered doctor — orphaned appointments are silently
dropped — each survivor re-linked to the doctor carrying its stored
`medico_id`. -/
theorem C4_roundtrip_orphan_drop (s : Financeiro)
    (hmd : (s.medicosView.map Medico.id).Nodup)
    (had : (s.atendimentosView.map AtendimentoRow.id).Nodup) :
    s.salvar_dados = some ⟨s.medicosView, s.atendimentosView⟩ ∧
    (carregar_dados ⟨s.medicosView, s.atendimentosView⟩).medicosView.Perm s.medicosView ∧
    (carregar_dados ⟨s.medicosView, s.atendimentosView⟩).atendimentosView.Perm
      (s.atendimentosView.filter
        (fun r => s.medicosView.any (fun m => m.id == r.medico_id))) := by
  refine ⟨salvar_of_nodup s hmd had, ?_, ?_⟩
  · rw [carregar_medicosView]
    exact sortById_perm Medico.id s.medicosView
  · rw [carregar_atendimentosView]
    have hfp := (sortById_perm AtendimentoRow.id s.atendimentosView).filter
      (DB.loadCond ⟨s.medicosView, s.atendimentosView⟩)
    have hc : ∀ r ∈ s.atendimentosView,
        DB.loadCond ⟨s.medicosView, s.atendimentosView⟩ r =
        s.medicosView.any (fun m => m.id == r.medico_id) := by
      intro r _
      unfold DB.loadCond DB.loadedMedicos
      exact any_eq_of_perm (sortById_perm Medico.id s.medicosView) _
    exact (List.filter_congr hc) ▸ hfp

/-- Witness for C4: the one-doctor one-appointment state round-trips. -/
theorem C4_witness :
    sReg.salvar_dados = some ⟨sReg.medicosView, sReg.atendimentosView⟩ ∧
    (carregar_dados ⟨sReg.medicosView, sReg.atendimentosView⟩).medicosView.Perm
      sReg.medicosView ∧
    (carregar_dados ⟨sReg.medicosView, sReg.atendimentosView⟩).atendimentosView.Perm
      (sReg.atendimentosView.filter
        (fun r => sReg.medicosView.any (fun m => m.id == r.medico_id))) :=
  C4_roundtrip_orphan_drop sReg (by decide) (by decide)

end Medipay
